import Mathlib

/-!
Verification of the seat-reservation core of the movie-booking service.

The definitions below are a shallow embedding of the Python source:
* `Movie`, `Show`, `Booking` follow `booking/models.py` (the `Booking`
  model has no uniqueness constraint; its `status` is the literal string
  "booked" or "cancelled", defaulting to "booked").
* `bookSeat` follows `BookShowView.post` in `booking/views.py`
  (lines 196-259): show lookup, truthiness check on the request value,
  integer conversion, range check, the two `filter(..., status="booked")`
  existence checks, and record creation.
* `cancelBooking` follows `CancelBookingView.post` (lines 319-343):
  lookup by id, ownership check, already-cancelled check, status update.
* `getAvailability` follows `AvailableSeatsView.get` (lines 134-153):
  booked set, `{1..total_seats}` minus booked, sorted lists and count.
* `attemptLoop` follows the retry loop of `BookShowView.post`
  (lines 221-271): `for attempt in range(3)`, an `IntegrityError`
  triggers a sleep of `retry_delay` plus jitter and doubles
  `retry_delay` (initially 0.1 s, modelled in milliseconds), any
  response returns at once, and an `IntegrityError` on the last
  attempt returns the 409 exhaustion response.

Requests are serialized: the database row lock
(`select_for_update`) makes concurrent booking attempts on one seat
execute their transactions one after the other, so sequences of
operations model every serialized interleaving.
-/

/-- A show row: `Show` in `models.py` (only the fields the core reads). -/
structure MShow where
  id : Nat
  total_seats : Nat
deriving Repr, DecidableEq

/-- A booking row: `Booking` in `models.py`. `status` is the stored string. -/
structure Booking where
  id : Nat
  user : Nat
  showId : Nat
  seat_number : Nat
  status : String
deriving Repr, DecidableEq

/-- The reservation store: all booking rows plus the next primary key. -/
structure ServerState where
  bookings : List Booking
  nextId : Nat
deriving Repr, DecidableEq

/-- The value found at key `seat_number` in the request body:
absent, a JSON integer, or a string. -/
inductive ReqVal
  | missing
  | intVal (n : Int)
  | strVal (s : String)
deriving Repr, DecidableEq

/-- Python truthiness of the request value: `not seat_number` in the view
is true for `None`, for the integer `0` and for the empty string. -/
def ReqVal.falsy : ReqVal → Bool
  | .missing => true
  | .intVal n => n == 0
  | .strVal s => s == ""

/-- `int(seat_number)`: succeeds on an integer, parses a string, and
raises (`none`) otherwise. -/
def ReqVal.toInt : ReqVal → Option Int
  | .missing => none
  | .intVal n => some n
  | .strVal s => s.toInt?

/-- Outcome of `BookShowView.post`, one constructor per `return Response`. -/
inductive BookResult
  | notFound
  | missingSeat
  | notInteger
  | outOfRange
  | conflictTaken
  | duplicateSame
  | created (b : Booking)
  | conflictRetryExhausted
deriving Repr, DecidableEq

/-- HTTP status code of each booking outcome, as in the view. -/
def BookResult.httpStatus : BookResult → Nat
  | .notFound => 404
  | .missingSeat => 400
  | .notInteger => 400
  | .outOfRange => 400
  | .conflictTaken => 409
  | .duplicateSame => 400
  | .created _ => 201
  | .conflictRetryExhausted => 409

/-- `InvalidInput` outcomes of the spec taxonomy: the HTTP 400 responses. -/
def BookResult.isInvalidInput : BookResult → Bool
  | .missingSeat => true
  | .notInteger => true
  | .outOfRange => true
  | .duplicateSame => true
  | _ => false

/-- Whether the outcome is the narrow same-caller duplicate rejection. -/
def BookResult.isDuplicateSame : BookResult → Bool
  | .duplicateSame => true
  | _ => false

/-- `get_object_or_404(Show, id=show_id)`. -/
def findShow (shows : List MShow) (sid : Nat) : Option MShow :=
  shows.find? (fun s => s.id == sid)

/-- The row predicate of `Booking.objects.filter(show=show,
seat_number=seat_number, status="booked")`. -/
def isActiveFor (sid seat : Nat) (b : Booking) : Bool :=
  b.showId == sid && b.seat_number == seat && b.status == "booked"

/-- `BookShowView.post` without the retry wrapper: the validation chain
and the body of one `transaction.atomic()` block (`views.py` 196-259). -/
def bookSeat (shows : List MShow) (st : ServerState) (user sid : Nat)
    (req : ReqVal) : BookResult × ServerState :=
  match findShow shows sid with
  | none => (.notFound, st)
  | some s =>
    if req.falsy then (.missingSeat, st)
    else
      match req.toInt with
      | none => (.notInteger, st)
      | some n =>
        if n < 1 || n > (s.total_seats : Int) then (.outOfRange, st)
        else
          match st.bookings.find? (isActiveFor sid n.toNat) with
          | some _ => (.conflictTaken, st)
          | none =>
            match st.bookings.find?
                (fun x => isActiveFor sid n.toNat x && x.user == user) with
            | some _ => (.duplicateSame, st)
            | none =>
              (.created ⟨st.nextId, user, sid, n.toNat, "booked"⟩,
               ⟨st.bookings ++ [⟨st.nextId, user, sid, n.toNat, "booked"⟩],
                st.nextId + 1⟩)

/-- Outcome of `CancelBookingView.post`. -/
inductive CancelResult
  | notFound
  | forbidden
  | alreadyCancelled
  | cancelled (b : Booking)
deriving Repr, DecidableEq

/-- `CancelBookingView.post` (`views.py` 319-343): lookup, ownership
check, already-cancelled check, then `booking.status = "cancelled"`. -/
def cancelBooking (st : ServerState) (user bid : Nat) :
    CancelResult × ServerState :=
  match st.bookings.find? (fun b => b.id == bid) with
  | none => (.notFound, st)
  | some b =>
    if b.user != user then (.forbidden, st)
    else if b.status == "cancelled" then (.alreadyCancelled, st)
    else
      (.cancelled { b with status := "cancelled" },
       { st with bookings := st.bookings.map (fun x =>
          if x.id == bid then { x with status := "cancelled" } else x) })

/-- A serialized operation hitting the store. -/
inductive Op
  | bookOp (user sid : Nat) (req : ReqVal)
  | cancelOp (user bid : Nat)
deriving Repr, DecidableEq

/-- Apply one operation, keeping only the resulting store state. -/
def applyOp (shows : List MShow) (st : ServerState) (op : Op) : ServerState :=
  match op with
  | .bookOp u sid r => (bookSeat shows st u sid r).2
  | .cancelOp u bid => (cancelBooking st u bid).2

/-- The empty store, before any request. -/
def initState : ServerState := ⟨[], 1⟩

/-- The store after a serialized sequence of operations. -/
def execOps (shows : List MShow) (ops : List Op) : ServerState :=
  ops.foldl (applyOp shows) initState

/-- Invariant A: at most one Active booking per (show, seat) pair. -/
def mutualExclusion (bs : List Booking) : Prop :=
  ∀ sid seat : Nat, bs.countP (isActiveFor sid seat) ≤ 1

/-- Every booking row references an existing show and a seat in range
(Invariant B), and carries one of the two legal status strings. -/
def rowsWellFormed (shows : List MShow) (bs : List Booking) : Prop :=
  ∀ b ∈ bs, (∃ s, findShow shows b.showId = some s ∧
      1 ≤ b.seat_number ∧ b.seat_number ≤ s.total_seats) ∧
    (b.status = "booked" ∨ b.status = "cancelled")

/-- The seat numbers with an Active booking for the show:
`set(Booking.objects.filter(show=show, status="booked")
.values_list('seat_number', flat=True))`. -/
def bookedSeatSet (bs : List Booking) (sid : Nat) : Finset Nat :=
  ((bs.filter (fun b => b.showId == sid && b.status == "booked")).map
    (fun b => b.seat_number)).toFinset

/-- The response body of `AvailableSeatsView.get`. -/
structure AvailResp where
  total_seats : Nat
  booked_seats : List Nat
  available_seats : List Nat
  available_count : Nat
deriving Repr, DecidableEq

/-- `AvailableSeatsView.get` (`views.py` 134-153): `none` is the 404 on
an unknown show; otherwise the booked set, `{1..total_seats}` minus the
booked set, both sorted, and the available count. -/
def getAvailability (shows : List MShow) (st : ServerState) (sid : Nat) :
    Option AvailResp :=
  match findShow shows sid with
  | none => none
  | some s =>
    let booked := bookedSeatSet st.bookings sid
    let allSeats := Finset.Icc 1 s.total_seats
    let avail := allSeats \ booked
    some ⟨s.total_seats, booked.sort (· ≤ ·), avail.sort (· ≤ ·), avail.card⟩

/-- What one iteration of the retry loop produces: either the
transaction ran to a `return Response` (any branch of the atomic block),
or the commit raised `IntegrityError`. -/
inductive AttemptOutcome
  | response (r : BookResult)
  | integrityError
deriving Repr, DecidableEq

/-- Trace of a run of the retry loop: the response sent, the number of
attempts consumed, and the sleeps performed (in milliseconds, most
recent last). `response = none` models the loop falling through with no
`return` (Python would return `None`). -/
structure LoopTrace where
  response : Option BookResult
  attemptsUsed : Nat
  sleeps : List Nat
deriving Repr, DecidableEq

/-- The retry loop of `BookShowView.post` (`views.py` 221-271).
`outcomes k` is what attempt number `k` produces; `jitter k` is the
value of `random.uniform(0, 0.05)` drawn on attempt `k`, in
milliseconds. `fuel` is the number of loop iterations still available,
`maxRetries - attempt`, so `fuel = 0` after the match corresponds to
`attempt == max_retries - 1`. A response returns immediately; an
`IntegrityError` on a non-final attempt sleeps `delay + jitter attempt`
(`time.sleep(retry_delay + random.uniform(0, 0.05))`), doubles the
delay and retries; an `IntegrityError` on the final attempt returns the
409 exhaustion response. -/
def attemptLoop (outcomes : Nat → AttemptOutcome) (jitter : Nat → Nat) :
    Nat → Nat → Nat → List Nat → LoopTrace
  | 0, attempt, _, slept => ⟨none, attempt, slept.reverse⟩
  | fuel + 1, attempt, delay, slept =>
    match outcomes attempt with
    | .response r => ⟨some r, attempt + 1, slept.reverse⟩
    | .integrityError =>
      if fuel = 0 then
        ⟨some .conflictRetryExhausted, attempt + 1, slept.reverse⟩
      else
        attemptLoop outcomes jitter fuel (attempt + 1) (delay * 2)
          ((delay + jitter attempt) :: slept)

/-- The loop as entered by the view: `max_retries = 3`,
`retry_delay = 0.1` seconds = 100 ms. -/
def runBookingLoop (outcomes : Nat → AttemptOutcome) (jitter : Nat → Nat) :
    LoopTrace :=
  attemptLoop outcomes jitter 3 0 100 []

/-! ### Helper lemmas -/

theorem countP_map_le_of_imp {α : Type} (p : α → Bool) (f : α → α)
    (h : ∀ x, p (f x) = true → p x = true) (l : List α) :
    (l.map f).countP p ≤ l.countP p := by
  induction l with
  | nil => simp
  | cons a l ih =>
    simp only [List.map_cons, List.countP_cons]
    by_cases hpa : p (f a) = true
    · have hp := h a hpa
      simp only [hpa, hp, if_true]
      omega
    · rw [if_neg hpa]
      split <;> omega

theorem countP_eq_zero_of_find?_eq_none {α : Type} {p : α → Bool}
    {l : List α} (h : l.find? p = none) : l.countP p = 0 :=
  List.countP_eq_zero.mpr (fun a ha => by
    have hx := List.find?_eq_none.mp h a ha
    simpa using hx)

/-- The two store invariants together: Invariant A (mutual exclusion)
and well-formedness of every row (Invariant B plus legal status). -/
def stateInv (shows : List MShow) (st : ServerState) : Prop :=
  mutualExclusion st.bookings ∧ rowsWellFormed shows st.bookings

theorem bookSeat_preserves_inv (shows : List MShow) (st : ServerState)
    (u sid : Nat) (req : ReqVal) (h : stateInv shows st) :
    stateInv shows (bookSeat shows st u sid req).2 := by
  obtain ⟨hmx, hwf⟩ := h
  unfold bookSeat
  split
  · exact ⟨hmx, hwf⟩
  next s hs =>
  split
  · exact ⟨hmx, hwf⟩
  split
  · exact ⟨hmx, hwf⟩
  next n hn =>
  split
  · exact ⟨hmx, hwf⟩
  next hrange =>
  split
  · exact ⟨hmx, hwf⟩
  next hfind1 =>
  split
  · exact ⟨hmx, hwf⟩
  next hfind2 =>
  have h0 : st.bookings.countP (isActiveFor sid n.toNat) = 0 :=
    countP_eq_zero_of_find?_eq_none hfind1
  have hrange2 : 1 ≤ n ∧ n ≤ (s.total_seats : Int) := by
    simp only [Bool.or_eq_true, decide_eq_true_eq, not_or] at hrange
    omega
  constructor
  · intro sid2 seat2
    simp only [List.countP_append]
    by_cases hb : isActiveFor sid2 seat2 ⟨st.nextId, u, sid, n.toNat, "booked"⟩ = true
    · have heq : sid = sid2 ∧ n.toNat = seat2 := by
        simp only [isActiveFor, Bool.and_eq_true, beq_iff_eq] at hb
        exact ⟨hb.1.1, hb.1.2⟩
      obtain ⟨h1, h2⟩ := heq
      subst h1; subst h2
      simp only [List.countP_cons, List.countP_nil, hb, if_pos]
      omega
    · have hz : List.countP (isActiveFor sid2 seat2)
          [({ id := st.nextId, user := u, showId := sid,
              seat_number := n.toNat, status := "booked" } : Booking)] = 0 := by
        simp only [List.countP_cons, List.countP_nil, hb, if_neg]
        simp [hb]
      rw [hz]
      have := hmx sid2 seat2
      omega
  · intro b hb
    rcases List.mem_append.mp hb with hmem | hmem
    · exact hwf b hmem
    · have hbeq : b = ⟨st.nextId, u, sid, n.toNat, "booked"⟩ := by
        simpa using hmem
      subst hbeq
      refine ⟨⟨s, hs, ?_, ?_⟩, Or.inl rfl⟩ <;> dsimp only <;> omega

theorem cancelBooking_preserves_inv (shows : List MShow)
    (st : ServerState) (u bid : Nat) (h : stateInv shows st) :
    stateInv shows (cancelBooking st u bid).2 := by
  obtain ⟨hmx, hwf⟩ := h
  unfold cancelBooking
  split
  · exact ⟨hmx, hwf⟩
  next b hfind =>
  split
  · exact ⟨hmx, hwf⟩
  split
  · exact ⟨hmx, hwf⟩
  constructor
  · intro sid seat
    refine le_trans (countP_map_le_of_imp _ _ ?_ _) (hmx sid seat)
    intro x hx
    by_cases hid : (x.id == bid) = true
    · rw [if_pos hid] at hx
      exfalso
      simp [isActiveFor] at hx
    · rwa [if_neg hid] at hx
  · intro x hx
    rcases List.mem_map.mp hx with ⟨y, hy, rfl⟩
    obtain ⟨hy1, hy2⟩ := hwf y hy
    by_cases hid : (y.id == bid) = true
    · rw [if_pos hid]
      exact ⟨hy1, Or.inr rfl⟩
    · rw [if_neg hid]
      exact ⟨hy1, hy2⟩

theorem applyOp_preserves_inv (shows : List MShow) (st : ServerState)
    (op : Op) (h : stateInv shows st) :
    stateInv shows (applyOp shows st op) := by
  cases op with
  | bookOp u sid r => exact bookSeat_preserves_inv shows st u sid r h
  | cancelOp u bid => exact cancelBooking_preserves_inv shows st u bid h

theorem initState_inv (shows : List MShow) : stateInv shows initState := by
  constructor
  · intro sid seat
    simp [initState, mutualExclusion]
  · intro b hb
    simp [initState] at hb

theorem cancel_state_lemma (st : ServerState) (u bid : Nat) (b : Booking)
    (hfind : st.bookings.find? (fun x => x.id == bid) = some b) :
    cancelBooking st u bid =
      (if b.user != u then (.forbidden, st)
       else if b.status == "cancelled" then (.alreadyCancelled, st)
       else (.cancelled { b with status := "cancelled" },
         { st with bookings := st.bookings.map (fun x =>
            if x.id == bid then { x with status := "cancelled" } else x) })) := by
  unfold cancelBooking
  rw [hfind]

theorem execOps_inv (shows : List MShow) (ops : List Op) :
    stateInv shows (execOps shows ops) := by
  suffices h : ∀ st, stateInv shows st →
      stateInv shows (ops.foldl (applyOp shows) st) from
    h initState (initState_inv shows)
  induction ops with
  | nil => intro st h; exact h
  | cons op ops ih =>
    intro st h
    exact ih _ (applyOp_preserves_inv shows st op h)

/-! ### Claim theorems -/

/-- C5: cancelling an existing reservation whose owner differs from the
caller returns Forbidden and leaves the store unchanged, whatever the
reservation's status — including "cancelled" — because the ownership
check is decided before the state check. -/
theorem cancel_nonowner_forbidden (st : ServerState) (u bid : Nat)
    (b : Booking)
    (hfind : st.bookings.find? (fun x => x.id == bid) = some b)
    (hne : b.user ≠ u) :
    cancelBooking st u bid = (.forbidden, st) := by
  rw [cancel_state_lemma st u bid b hfind]
  rw [if_pos (by simpa [bne_iff_ne] using hne)]

/-- C5 witness: a stranger cancelling an already-cancelled booking
still gets Forbidden, with the store untouched. -/
theorem cancel_nonowner_forbidden_witness :
    cancelBooking ⟨[⟨1, 7, 1, 5, "cancelled"⟩], 2⟩ 9 1 =
      (.forbidden, ⟨[⟨1, 7, 1, 5, "cancelled"⟩], 2⟩) :=
  cancel_nonowner_forbidden _ 9 1 ⟨1, 7, 1, 5, "cancelled"⟩ rfl (by decide)

/-- C6: cancelling an already-cancelled reservation as its owner
returns the InvalidState rejection and leaves the store unchanged. -/
theorem cancel_released_invalid_state (st : ServerState) (u bid : Nat)
    (b : Booking)
    (hfind : st.bookings.find? (fun x => x.id == bid) = some b)
    (hu : b.user = u) (hst : b.status = "cancelled") :
    cancelBooking st u bid = (.alreadyCancelled, st) := by
  rw [cancel_state_lemma st u bid b hfind]
  rw [if_neg (by simp [hu]), if_pos (by simp [hst])]

/-- C6 witness: the owner re-cancelling their cancelled booking gets
the already-cancelled rejection. -/
theorem cancel_released_invalid_state_witness :
    cancelBooking ⟨[⟨1, 7, 1, 5, "cancelled"⟩], 2⟩ 7 1 =
      (.alreadyCancelled, ⟨[⟨1, 7, 1, 5, "cancelled"⟩], 2⟩) :=
  cancel_released_invalid_state _ 7 1 ⟨1, 7, 1, 5, "cancelled"⟩ rfl rfl rfl

/-- C3: for an existing show, a booking request whose seat number
converts to an integer that is ≤ 0 or exceeds the show's capacity is
answered with an InvalidInput (HTTP 400) response, for every store
state and caller, and the store is unchanged. -/
theorem book_out_of_range_invalid (shows : List MShow) (st : ServerState)
    (u sid : Nat) (req : ReqVal) (s : MShow) (n : Int)
    (hs : findShow shows sid = some s)
    (hreq : req.toInt = some n)
    (hn : n ≤ 0 ∨ (s.total_seats : Int) < n) :
    (bookSeat shows st u sid req).1.isInvalidInput = true ∧
    (bookSeat shows st u sid req).2 = st := by
  unfold bookSeat
  simp only [hs]
  by_cases hf : req.falsy = true
  · rw [if_pos hf]
    exact ⟨rfl, rfl⟩
  · rw [if_neg hf]
    simp only [hreq]
    rw [if_pos (by simp only [Bool.or_eq_true, decide_eq_true_eq]; omega)]
    exact ⟨rfl, rfl⟩

/-- C3 witness: seat 11 on a 10-seat show is rejected as InvalidInput
and creates nothing. -/
theorem book_out_of_range_invalid_witness :
    (bookSeat [⟨1, 10⟩] initState 7 1 (.intVal 11)).1.isInvalidInput = true ∧
    (bookSeat [⟨1, 10⟩] initState 7 1 (.intVal 11)).2 = initState :=
  book_out_of_range_invalid [⟨1, 10⟩] initState 7 1 (.intVal 11) ⟨1, 10⟩ 11
    rfl rfl (by decide)

/-- C10: for an existing show, a seat number equal to the integer 0, or
a falsy value such as the empty string, is caught by the truthiness
check and answered with the missing-field InvalidInput response (not
the out-of-range one); no reservation is created. -/
theorem book_falsy_seat_missing_field (shows : List MShow)
    (st : ServerState) (u sid : Nat) (s : MShow)
    (hs : findShow shows sid = some s) :
    bookSeat shows st u sid (.intVal 0) = (.missingSeat, st) ∧
    bookSeat shows st u sid (.strVal "") = (.missingSeat, st) := by
  constructor <;> (unfold bookSeat; simp only [hs]; rfl)

/-- C10 witness: booking seat 0 on a 10-seat show yields the
missing-field rejection. -/
theorem book_falsy_seat_missing_field_witness :
    bookSeat [⟨1, 10⟩] initState 7 1 (.intVal 0) =
      (.missingSeat, initState) ∧
    bookSeat [⟨1, 10⟩] initState 7 1 (.strVal "") =
      (.missingSeat, initState) :=
  book_falsy_seat_missing_field [⟨1, 10⟩] initState 7 1 ⟨1, 10⟩ rfl

/-- C9: the narrow same-caller duplicate branch never produces the
response: whenever the caller holds an Active reservation for the seat,
the preceding general Active check has already answered Conflict, so no
execution of the booking view returns the duplicate-booking rejection. -/
theorem duplicate_branch_dead (shows : List MShow) (st : ServerState)
    (u sid : Nat) (req : ReqVal) :
    ((bookSeat shows st u sid req).1).isDuplicateSame = false := by
  unfold bookSeat
  split
  · rfl
  next s hs =>
  split
  · rfl
  split
  · rfl
  next n hn =>
  split
  · rfl
  split
  · rfl
  next hfind1 =>
  split
  next y hfind2 =>
    exfalso
    have hy := List.find?_some hfind2
    have hymem := List.mem_of_find?_eq_some hfind2
    have hnone := List.find?_eq_none.mp hfind1 y hymem
    simp only [Bool.and_eq_true] at hy
    exact hnone hy.1
  · rfl

/-- C7: booking is not idempotent — when the caller already holds an
Active reservation for the seat, resubmitting the identical valid
request returns Conflict (the general already-booked check fires) and
the store is unchanged. -/
theorem book_resubmit_conflict (shows : List MShow) (st : ServerState)
    (u sid : Nat) (req : ReqVal) (s : MShow) (n : Int) (b : Booking)
    (hs : findShow shows sid = some s)
    (hf : req.falsy = false)
    (hreq : req.toInt = some n)
    (hn1 : 1 ≤ n) (hn2 : n ≤ (s.total_seats : Int))
    (hb : b ∈ st.bookings) (hbu : b.user = u) (hbs : b.showId = sid)
    (hbseat : b.seat_number = n.toNat) (hbst : b.status = "booked") :
    bookSeat shows st u sid req = (.conflictTaken, st) := by
  unfold bookSeat
  simp only [hs]
  rw [if_neg (by simp [hf])]
  simp only [hreq]
  rw [if_neg (by simp only [Bool.or_eq_true, decide_eq_true_eq, not_or]; omega)]
  rcases hfd : st.bookings.find? (isActiveFor sid n.toNat) with _ | y
  · exfalso
    have hall := List.find?_eq_none.mp hfd b hb
    apply hall
    simp [isActiveFor, hbs, hbseat, hbst]
  · simp [hfd]

/-- C7 witness: user 7 holds seat 5 Active and resubmits the same
request; the result is Conflict and the store is unchanged. -/
theorem book_resubmit_conflict_witness :
    bookSeat [⟨1, 10⟩] ⟨[⟨1, 7, 1, 5, "booked"⟩], 2⟩ 7 1 (.intVal 5) =
      (.conflictTaken, ⟨[⟨1, 7, 1, 5, "booked"⟩], 2⟩) :=
  book_resubmit_conflict [⟨1, 10⟩] ⟨[⟨1, 7, 1, 5, "booked"⟩], 2⟩ 7 1
    (.intVal 5) ⟨1, 10⟩ 5 ⟨1, 7, 1, 5, "booked"⟩ rfl rfl rfl (by decide)
    (by decide) (by decide) rfl rfl rfl rfl

/-- C8: the booking attempt loop always terminates with a response
within 3 attempts; any response produced by an attempt (Conflict on a
found Active reservation included) is returned at once with no retry
and no sleep; only an IntegrityError triggers a retry, sleeping the
current delay (starting at 100 ms, doubling each retry) plus jitter;
and a third consecutive IntegrityError yields the Conflict exhaustion
response rather than silence. -/
theorem retry_loop_spec (outcomes : Nat → AttemptOutcome)
    (jitter : Nat → Nat) :
    (runBookingLoop outcomes jitter).attemptsUsed ≤ 3 ∧
    (runBookingLoop outcomes jitter).response.isSome = true ∧
    (∀ r, outcomes 0 = .response r →
      runBookingLoop outcomes jitter = ⟨some r, 1, []⟩) ∧
    (∀ r, outcomes 0 = .integrityError → outcomes 1 = .response r →
      runBookingLoop outcomes jitter = ⟨some r, 2, [100 + jitter 0]⟩) ∧
    (∀ r, outcomes 0 = .integrityError → outcomes 1 = .integrityError →
      outcomes 2 = .response r →
      runBookingLoop outcomes jitter =
        ⟨some r, 3, [100 + jitter 0, 200 + jitter 1]⟩) ∧
    (outcomes 0 = .integrityError → outcomes 1 = .integrityError →
      outcomes 2 = .integrityError →
      runBookingLoop outcomes jitter =
        ⟨some .conflictRetryExhausted, 3, [100 + jitter 0, 200 + jitter 1]⟩) := by
  rcases h0 : outcomes 0 with r0 | _ <;>
    rcases h1 : outcomes 1 with r1 | _ <;>
      rcases h2 : outcomes 2 with r2 | _ <;>
        refine ⟨?_, ?_, ?_, ?_, ?_, ?_⟩ <;>
          simp [runBookingLoop, attemptLoop, h0, h1, h2]

/-- C8 witness: with an IntegrityError on every attempt and zero
jitter, the loop stops after exactly 3 attempts, sleeping 100 ms then
200 ms, and reports the Conflict exhaustion response. -/
theorem retry_loop_spec_witness :
    runBookingLoop (fun _ => .integrityError) (fun _ => 0) =
      ⟨some .conflictRetryExhausted, 3, [100, 200]⟩ :=
  (retry_loop_spec (fun _ => .integrityError) (fun _ => 0)).2.2.2.2.2
    rfl rfl rfl

theorem bookSeat_created_inv {shows : List MShow} {st st1 : ServerState}
    {u sid : Nat} {req : ReqVal} {b : Booking}
    (h : bookSeat shows st u sid req = (.created b, st1)) :
    ∃ s n, findShow shows sid = some s ∧ req.falsy = false ∧
      req.toInt = some n ∧ 1 ≤ n ∧ n ≤ (s.total_seats : Int) ∧
      st.bookings.find? (isActiveFor sid n.toNat) = none ∧
      b = ⟨st.nextId, u, sid, n.toNat, "booked"⟩ ∧
      st1 = ⟨st.bookings ++ [b], st.nextId + 1⟩ := by
  unfold bookSeat at h
  split at h
  · simp at h
  next s hs =>
  split at h
  · simp at h
  next hf =>
  split at h
  · simp at h
  next n hn =>
  split at h
  · simp at h
  next hrange =>
  split at h
  · simp at h
  next hfind1 =>
  split at h
  · simp at h
  next hfind2 =>
  simp only [Prod.mk.injEq, BookResult.created.injEq] at h
  obtain ⟨hb, hst1⟩ := h
  have hrange2 : 1 ≤ n ∧ n ≤ (s.total_seats : Int) := by
    simp only [Bool.or_eq_true, decide_eq_true_eq, not_or] at hrange
    omega
  exact ⟨s, n, hs, by simpa using hf, hn, hrange2.1, hrange2.2, hfind1,
    hb.symm, by rw [← hst1, ← hb]⟩

theorem cancelBooking_cancelled_inv {st st2 : ServerState} {u bid : Nat}
    {c : Booking}
    (h : cancelBooking st u bid = (.cancelled c, st2)) :
    st2 = { st with bookings := st.bookings.map (fun x =>
      if x.id == bid then { x with status := "cancelled" } else x) } := by
  unfold cancelBooking at h
  split at h
  · simp at h
  next b0 hfind =>
  split at h
  · simp at h
  split at h
  · simp at h
  simp only [Prod.mk.injEq, CancelResult.cancelled.injEq] at h
  exact h.2.symm

/-- C1: Invariant A holds in every store reachable by a serialized
sequence of booking and cancellation operations from the empty store:
for each (show, seat) pair, at most one booking row has status
"booked". The database row lock serializes concurrent attempts on a
seat, so these sequences cover every concurrent interleaving. -/
theorem active_mutual_exclusion (shows : List MShow) (ops : List Op) :
    mutualExclusion (execOps shows ops).bookings :=
  (execOps_inv shows ops).1

theorem bookedSeatSet_mem {bs : List Booking} {sid x : Nat} :
    x ∈ bookedSeatSet bs sid ↔
      ∃ b ∈ bs, b.showId = sid ∧ b.status = "booked" ∧
        b.seat_number = x := by
  unfold bookedSeatSet
  simp only [List.mem_toFinset, List.mem_map, List.mem_filter,
    Bool.and_eq_true, beq_iff_eq]
  constructor
  · rintro ⟨b, ⟨hb, h1, h2⟩, rfl⟩
    exact ⟨b, hb, h1, h2, rfl⟩
  · rintro ⟨b, hb, h1, h2, rfl⟩
    exact ⟨b, ⟨hb, h1, h2⟩, rfl⟩

/-- C2: in every reachable store, availability for an existing show
returns sorted, disjoint booked and available lists whose union is
exactly the seats 1 to total_seats; the available count plus the number
of booked seats equals total_seats; and the booked list holds exactly
the seats with an Active booking for the show. -/
theorem availability_consistent (shows : List MShow) (ops : List Op)
    (sid : Nat) (r : AvailResp)
    (h : getAvailability shows (execOps shows ops) sid = some r) :
    r.booked_seats.Sorted (· ≤ ·) ∧
    r.available_seats.Sorted (· ≤ ·) ∧
    (∀ x, x ∈ r.booked_seats → x ∉ r.available_seats) ∧
    (∀ x, (x ∈ r.booked_seats ∨ x ∈ r.available_seats) ↔
      (1 ≤ x ∧ x ≤ r.total_seats)) ∧
    r.available_count + r.booked_seats.length = r.total_seats ∧
    r.available_count = r.available_seats.length ∧
    (∀ x, x ∈ r.booked_seats ↔
      ∃ b ∈ (execOps shows ops).bookings,
        b.showId = sid ∧ b.status = "booked" ∧ b.seat_number = x) := by
  have hwf := (execOps_inv shows ops).2
  unfold getAvailability at h
  rcases hfs : findShow shows sid with _ | s
  · rw [hfs] at h
    simp at h
  rw [hfs] at h
  simp only [Option.some.injEq] at h
  subst h
  have hsub : bookedSeatSet (execOps shows ops).bookings sid ⊆
      Finset.Icc 1 s.total_seats := by
    intro x hx
    obtain ⟨b, hb, h1, h2, h3⟩ := bookedSeatSet_mem.mp hx
    obtain ⟨⟨s2, hs2, hlo, hhi⟩, -⟩ := hwf b hb
    rw [h1, hfs] at hs2
    simp only [Option.some.injEq] at hs2
    subst hs2
    rw [← h3]
    exact Finset.mem_Icc.mpr ⟨hlo, hhi⟩
  dsimp only
  refine ⟨Finset.sort_sorted _ _, Finset.sort_sorted _ _, ?_, ?_, ?_, ?_, ?_⟩
  · intro x hx
    simp only [Finset.mem_sort] at hx ⊢
    simp only [Finset.mem_sdiff]
    intro hcontra
    exact hcontra.2 hx
  · intro x
    simp only [Finset.mem_sort, Finset.mem_sdiff, ← Finset.mem_Icc]
    constructor
    · rintro (hx | hx)
      · exact hsub hx
      · exact hx.1
    · intro hx
      by_cases hb : x ∈ bookedSeatSet (execOps shows ops).bookings sid
      · exact Or.inl hb
      · exact Or.inr ⟨hx, hb⟩
  · simp only [Finset.length_sort]
    rw [Finset.card_sdiff hsub]
    have hle := Finset.card_le_card hsub
    simp only [Nat.card_Icc] at hle ⊢
    omega
  · simp only [Finset.length_sort]
  · intro x
    simp only [Finset.mem_sort]
    exact bookedSeatSet_mem

/-- C2 witness: a fresh one-seat show reports no booked seats, the
single available seat, and a consistent count. -/
theorem availability_consistent_witness :
    getAvailability [⟨1, 1⟩] (execOps [⟨1, 1⟩] []) 1 =
      some ⟨1, [], [1], 1⟩ ∧
    (⟨1, [], [1], 1⟩ : AvailResp).available_count +
      (⟨1, [], [1], 1⟩ : AvailResp).booked_seats.length =
      (⟨1, [], [1], 1⟩ : AvailResp).total_seats := by
  have hh : getAvailability [⟨1, 1⟩] (execOps [⟨1, 1⟩] []) 1 =
      some ⟨1, [], [1], 1⟩ := by
    show getAvailability [⟨1, 1⟩] initState 1 = some ⟨1, [], [1], 1⟩
    unfold getAvailability
    rw [show findShow [⟨1, 1⟩] 1 = some ⟨1, 1⟩ from rfl]
    simp [bookedSeatSet, initState, Finset.Icc_self, Finset.sort_singleton]
  exact ⟨hh,
    (availability_consistent [⟨1, 1⟩] [] 1 ⟨1, [], [1], 1⟩ hh).2.2.2.2.1⟩

/-- C4: after a successful booking of a seat and a successful
cancellation of that booking, booking the same seat on the same show
again — by any caller — succeeds, creating a fresh Active record under
a new id, and every row carrying the cancelled record's id stays in
status "cancelled" (the old record is not re-activated). -/
theorem rebook_after_cancel (shows : List MShow)
    (st st1 st2 : ServerState) (u u2 sid : Nat) (req : ReqVal)
    (b c : Booking)
    (hbook : bookSeat shows st u sid req = (.created b, st1))
    (hcancel : cancelBooking st1 u b.id = (.cancelled c, st2)) :
    (bookSeat shows st2 u2 sid req).1 =
      .created ⟨st2.nextId, u2, sid, b.seat_number, "booked"⟩ ∧
    st2.nextId ≠ b.id ∧
    (∀ x ∈ (bookSeat shows st2 u2 sid req).2.bookings,
      x.id = b.id → x.status = "cancelled") := by
  obtain ⟨s, n, hs, hf, hreq, hn1, hn2, hfind1, hb, hst1⟩ :=
    bookSeat_created_inv hbook
  have hst2 := cancelBooking_cancelled_inv hcancel
  have hbid : b.id = st.nextId := by rw [hb]
  have hbseat : b.seat_number = n.toNat := by rw [hb]
  have hst2b : st2.bookings = (st.bookings ++ [b]).map (fun x =>
      if x.id == b.id then { x with status := "cancelled" } else x) := by
    rw [hst2, hst1]
  have hst2n : st2.nextId = st.nextId + 1 := by
    rw [hst2, hst1]
  have hnone : st2.bookings.find? (isActiveFor sid n.toNat) = none := by
    apply List.find?_eq_none.mpr
    intro x hx
    rw [hst2b] at hx
    rcases List.mem_map.mp hx with ⟨y, hy, rfl⟩
    rcases List.mem_append.mp hy with hy1 | hy2
    · by_cases hid : (y.id == b.id) = true
      · rw [if_pos hid]
        simp [isActiveFor]
      · rw [if_neg hid]
        have hnot := List.find?_eq_none.mp hfind1 y hy1
        simpa using hnot
    · have hyb : y = b := by simpa using hy2
      subst hyb
      rw [if_pos (by simp)]
      simp [isActiveFor]
  have hnone2 : st2.bookings.find?
      (fun x => isActiveFor sid n.toNat x && x.user == u2) = none := by
    apply List.find?_eq_none.mpr
    intro x hx hc
    have hnot := List.find?_eq_none.mp hnone x hx
    simp only [Bool.and_eq_true] at hc
    exact hnot hc.1
  have hcall : bookSeat shows st2 u2 sid req =
      (.created ⟨st2.nextId, u2, sid, n.toNat, "booked"⟩,
       ⟨st2.bookings ++ [⟨st2.nextId, u2, sid, n.toNat, "booked"⟩],
        st2.nextId + 1⟩) := by
    unfold bookSeat
    simp only [hs]
    rw [if_neg (by simp [hf])]
    simp only [hreq]
    rw [if_neg (by
      simp only [Bool.or_eq_true, decide_eq_true_eq, not_or]
      omega)]
    rw [hnone, hnone2]
  refine ⟨?_, ?_, ?_⟩
  · rw [hcall, hbseat]
  · rw [hst2n, hbid]
    omega
  · intro x hx hxid
    rw [hcall] at hx
    dsimp only at hx
    rcases List.mem_append.mp hx with hx1 | hx2
    · rw [hst2b] at hx1
      rcases List.mem_map.mp hx1 with ⟨y, hy, rfl⟩
      by_cases hid : (y.id == b.id) = true
      · rw [if_pos hid]
      · exfalso
        rw [if_neg hid] at hxid
        exact hid (by simp [hxid])
    · exfalso
      have hxn : x = ⟨st2.nextId, u2, sid, n.toNat, "booked"⟩ := by
        simpa using hx2
      rw [hxn] at hxid
      dsimp only at hxid
      rw [hst2n, hbid] at hxid
      omega

/-- C4 witness: user 7 books seat 5, cancels it, and user 8 books seat
5 again successfully as a new record, the old record staying
cancelled. -/
theorem rebook_after_cancel_witness :
    (bookSeat [⟨1, 10⟩]
        (cancelBooking
          (bookSeat [⟨1, 10⟩] initState 7 1 (.intVal 5)).2 7 1).2
        8 1 (.intVal 5)).1 =
      .created ⟨2, 8, 1, 5, "booked"⟩ ∧
    (2 : Nat) ≠ 1 ∧
    (∀ x ∈ (bookSeat [⟨1, 10⟩]
        (cancelBooking
          (bookSeat [⟨1, 10⟩] initState 7 1 (.intVal 5)).2 7 1).2
        8 1 (.intVal 5)).2.bookings,
      x.id = 1 → x.status = "cancelled") := by
  have h := rebook_after_cancel [⟨1, 10⟩] initState
    (bookSeat [⟨1, 10⟩] initState 7 1 (.intVal 5)).2
    (cancelBooking (bookSeat [⟨1, 10⟩] initState 7 1 (.intVal 5)).2 7 1).2
    7 8 1 (.intVal 5) ⟨1, 7, 1, 5, "booked"⟩ ⟨1, 7, 1, 5, "cancelled"⟩
    (by decide) (by decide)
  exact ⟨h.1, h.2.1, h.2.2⟩
